import Mathlib

/-!
# Verification of the DIYBot graph execution engine

This file is a shallow embedding, in Lean 4, of the workflow graph execution
engine of the DIYBot repository (`api/v1/nodes.py`: `combine_multiple_inputs`
and `execute_flow`, together with the pieces of `nodes/base_node.py`,
`nodes/node_registry.py`, `nodes/query_node/query_node.py` and
`nodes/response_node/response_node.py` that the engine exercises).

Modelling choices:
* Python runtime values are modelled by the inductive type `Value`
  (`None`, ints, strings, lists, dicts).  Python dicts are modelled as
  insertion-ordered association lists; assignment to an existing key updates
  the entry in place, assignment to a fresh key appends — matching CPython's
  ordered-dict semantics.
* Python sets that the engine only consults through membership /
  subset tests (`executed`, `skipped`, `remaining`, `depends_on`) are
  modelled as lists used as sets; the engine's iteration over
  `list(remaining_nodes)` is determinized to the node-insertion order.
* Exceptions raised by a node capability's `run`, or by a node class's
  constructor inside `node_registry.create_node`, are modelled by
  `Except String`; an uncaught exception escaping the scheduler loop
  (which FastAPI turns into a 500 response) is the `FatalError.internal`
  outcome; `HTTPException`s raised by the engine itself are the remaining
  `FatalError` constructors, carrying the same structured payload fields.
* `pyStrip` (leading/trailing `Char.isWhitespace`) stands in for Python's
  `str.strip()`.
-/

set_option maxRecDepth 20000

namespace DIYBot

/-- Model of a Python runtime value as routed between workflow nodes. -/
inductive Value where
  | vnone : Value
  | vint : Int → Value
  | vstr : String → Value
  | vlist : List Value → Value
  | vdict : List (String × Value) → Value

mutual

/-- Structural equality on `Value`s, modelling Python `==` between the value
shapes the engine routes (and `is None` checks, which agree with `==` here). -/
def valueBEq : Value → Value → Bool
  | .vnone, .vnone => true
  | .vint a, .vint b => a == b
  | .vstr a, .vstr b => a == b
  | .vlist a, .vlist b => valueListBEq a b
  | .vdict a, .vdict b => valueDictBEq a b
  | _, _ => false

/-- Pointwise `valueBEq` on lists. -/
def valueListBEq : List Value → List Value → Bool
  | [], [] => true
  | a :: as, b :: bs => valueBEq a b && valueListBEq as bs
  | _, _ => false

/-- Pointwise `valueBEq` on key/value lists. -/
def valueDictBEq : List (String × Value) → List (String × Value) → Bool
  | [], [] => true
  | (k, v) :: as, (k', v') :: bs => k == k' && valueBEq v v' && valueDictBEq as bs
  | _, _ => false

end

instance : BEq Value := ⟨valueBEq⟩

/-- `isinstance(v, str)` -/
def Value.isStr : Value → Bool
  | .vstr _ => true
  | _ => false

/-- The carried string (meaningful only under `isStr`). -/
def Value.asStr : Value → String
  | .vstr s => s
  | _ => ""

/-- `isinstance(v, dict)` -/
def Value.isDict : Value → Bool
  | .vdict _ => true
  | _ => false

/-- The carried key/value list (meaningful only under `isDict`). -/
def Value.asDict : Value → List (String × Value)
  | .vdict d => d
  | _ => []

/-- `isinstance(v, list)` -/
def Value.isList : Value → Bool
  | .vlist _ => true
  | _ => false

/-- The carried element list (meaningful only under `isList`). -/
def Value.asList : Value → List Value
  | .vlist l => l
  | _ => []

/-- `type(v).__name__`, as used by the mixed-type fallback of
`combine_multiple_inputs`. -/
def Value.typeName : Value → String
  | .vnone => "NoneType"
  | .vint _ => "int"
  | .vstr _ => "str"
  | .vlist _ => "list"
  | .vdict _ => "dict"

/-- Python's `candidate in (None, "", [], {})` test from `execute_flow`'s
routing step: equality against one of the four "empty" sentinels. -/
def pyEmptyLike : Value → Bool
  | .vnone => true
  | .vstr s => s = ""
  | .vlist l => l.isEmpty
  | .vdict d => d.isEmpty
  | _ => false

/-- Python `str.strip()`: drop leading and trailing whitespace
(`Char.isWhitespace` approximates Python's whitespace class). -/
def pyStrip (s : String) : String :=
  ⟨((s.data.dropWhile Char.isWhitespace).reverse.dropWhile Char.isWhitespace).reverse⟩

/-- Python `str.lower()` (on the ASCII type names the engine compares). -/
def pyLower (s : String) : String :=
  ⟨s.data.map Char.toLower⟩

/-! ## Ordered association lists: the model of Python dicts -/

/-- `d.get(k)` / `d[k]`: first binding of `k`, scanning in insertion order. -/
def alistFind? {α : Type} (l : List (String × α)) (k : String) : Option α :=
  match l with
  | [] => none
  | (k', v) :: rest => if k' = k then some v else alistFind? rest k

/-- `d[k] = v`: update the existing binding in place, else append. -/
def alistSet {α : Type} (l : List (String × α)) (k : String) (v : α) :
    List (String × α) :=
  match l with
  | [] => [(k, v)]
  | (k', v') :: rest =>
    if k' = k then (k, v) :: rest else (k', v') :: alistSet rest k v

/-- `d.update(other)`: assign every binding of `other` into `d`, in order. -/
def alistUpdate {α : Type} (l other : List (String × α)) : List (String × α) :=
  other.foldl (fun acc kv => alistSet acc kv.1 kv.2) l

/-- `k in d` -/
def alistContains {α : Type} (l : List (String × α)) (k : String) : Bool :=
  (alistFind? l k).isSome

/-- A dict of `Value`s (node inputs, node outputs, parameters). -/
abbrev Dict := List (String × Value)

/-! ## `combine_multiple_inputs` (api/v1/nodes.py, lines 27-92) -/

/-- Python's `max(strs, key=len)`: first string of maximal length. -/
def maxByLen (strs : List String) : String :=
  match strs with
  | [] => ""
  | s :: rest => rest.foldl (fun best t => if best.length < t.length then t else best) s

/-- The dict-merging arm of `combine_multiple_inputs` (lines 64-77): shallow
merge; on key collision concatenate string values with a newline, otherwise
add the second value under `"<key>_<i>"` where `i` is the index of the dict
it came from. -/
def mergeOneDict (acc : List (String × Value)) (i : Nat)
    (d : List (String × Value)) : List (String × Value) :=
  d.foldl (fun acc kv =>
    match alistFind? acc kv.1 with
    | some (Value.vstr s1) =>
      match kv.2 with
      | Value.vstr s2 => alistSet acc kv.1 (Value.vstr (s1 ++ "\n" ++ s2))
      | _ => alistSet acc (kv.1 ++ "_" ++ toString i) kv.2
    | some _ => alistSet acc (kv.1 ++ "_" ++ toString i) kv.2
    | none => alistSet acc kv.1 kv.2) acc

/-- `for i, d in enumerate(non_empty_values): ...` -/
def mergeDicts (ds : List (List (String × Value))) : List (String × Value) :=
  (ds.foldl (fun (p : List (String × Value) × Nat) d =>
    (mergeOneDict p.1 p.2 d, p.2 + 1)) ([], 0)).1

/-- `combine_multiple_inputs` (api/v1/nodes.py lines 27-92): combine the
values from multiple connections landing on the same input. -/
def combine_multiple_inputs (values : List Value) : Value :=
  if values.length = 0 then Value.vnone
  else if values.length = 1 then values.headD Value.vnone
  else
    -- non_empty_values = [v for v in values if v is not None and v != ""]
    let ne := values.filter fun v => !(v == Value.vnone) && !(v == Value.vstr "")
    if ne.length = 0 then Value.vnone
    else if ne.length = 1 then ne.headD Value.vnone
    else if ne.all Value.isStr then
      let strs := ne.map Value.asStr
      if strs.all (fun s => 0 < (pyStrip s).length) then
        Value.vstr ("Combined inputs:\n" ++ String.intercalate "\n\n" strs)
      else
        Value.vstr (maxByLen strs)
    else if ne.all Value.isDict then
      Value.vdict (mergeDicts (ne.map Value.asDict))
    else if ne.all Value.isList then
      Value.vlist ((ne.map Value.asList).foldl (· ++ ·) [])
    else
      Value.vdict
        [("combined_inputs", Value.vlist ne),
         ("input_count", Value.vint ne.length),
         ("input_types", Value.vlist (ne.map (fun v => Value.vstr v.typeName)))]





/-! ## Graph description payload (the `/nodes/execute` request body) -/

/-- One entry of the payload's `nodes` map: `{"type": ..., "name": ...,
"parameters": {...}}`.  `none` models an absent key; the engine reads the
type via `node_spec.get("type") or node_spec.get("name")`. -/
structure NodeCfg where
  type? : Option String := none
  name? : Option String := none
  parameters : Dict := []

/-- Python truthiness filter on an optional string: `s or ...` treats both
a missing key and `""` as falsy. -/
def strOpt : Option String → Option String
  | some s => if s = "" then none else some s
  | none => none

/-- `node_spec.get("type") or node_spec.get("name")` (falsy results fall
through; an overall falsy result is `none`). -/
def NodeCfg.typeName (c : NodeCfg) : Option String :=
  match strOpt c.type? with
  | some t => some t
  | none => strOpt c.name?

/-- One entry of the payload's `edges` list.  `""` models both an absent and
an empty field (the engine treats them alike through Python truthiness:
`src.get("output", "")`, `if not src_node`, `dst_input or src_output or
"default"`). -/
structure Edge where
  fromNode : String := ""
  fromOutput : String := ""
  toNode : String := ""
  toInput : String := ""
deriving DecidableEq, Repr

/-- The whole request payload `{nodes, edges, inputs}`. -/
structure Payload where
  nodes : List (String × NodeCfg)
  edges : List Edge
  inputs : List (String × Dict) := []

/-! ## Node capabilities and the registry -/

/-- An executable node instance: `run(inputs, parameters)` either returns an
output value or raises (modelled as `Except.error` carrying `str(e)`). -/
structure Capability where
  run : Dict → Dict → Except String Value

/-- The node registry consumed by the engine:
`node_registry.create_node(name)` has three outcomes — it returns an
instance, returns `None` for an unknown key, or raises, because the stored
class is constructed inside `create_node` (node_registry.py:20-25) and a
raising `__init__` escapes as an exception. -/
def Registry : Type := String → Except String (Option Capability)

/-- `NodeRegistry.create_node` looks keys up after lowercasing
(`self._nodes.get(name.lower())`) and then instantiates the stored class:
each table entry is either a constructible capability or the `str(e)` of the
`TypeError`/exception its constructor raises. -/
def mkRegistry (tbl : List (String × Except String Capability)) : Registry :=
  fun name =>
    match alistFind? tbl (pyLower name) with
    | some (.ok c) => .ok (some c)
    | some (.error e) => .error e
    | none => .ok none

/-- `create_node_instance` helper inside `execute_flow` (nodes.py:244-250):
try the type name, then its lowercase form; a constructor exception from the
first call propagates (the fallback is never reached). -/
def create_node_instance (reg : Registry) (typeName : String) :
    Except String (Option Capability) :=
  match reg typeName with
  | .error e => .error e
  | .ok (some c) => .ok (some c)
  | .ok none => reg (pyLower typeName)

/-! ## Fatal outcomes of an invocation -/

/-- The ways `POST /nodes/execute` terminates without a success body:
the engine's own `HTTPException`s (carrying the same structured payload
fields) and `internal` for an uncaught exception escaping the scheduler
loop (FastAPI's 500 path through the outer `except Exception`). -/
inductive FatalError where
  | emptyNodes
  | missingRoles (received : List String) (hasQuery hasResponse : Bool)
  | badEdge
  | unknownEdgeRef (src dst : String)
  | deadlock (unresolved : List String)
  | internal (msg : String)
deriving DecidableEq, Repr

/-! ## Graph compilation: adjacency and dependency maps -/

/-- An entry of `incoming_by_node`:
`{"from": src_node, "output": src_output, "input": dst_input}`. -/
structure IncEdge where
  src : String
  output : String
  input : String
deriving DecidableEq, Repr

/-- Append `v` to the list stored under `k` (Python
`incoming_by_node[dst].append(rec)`; `k` is always present). -/
def alistAppendTo {α : Type} (l : List (String × List α)) (k : String) (v : α) :
    List (String × List α) :=
  match l with
  | [] => []
  | (k', vs) :: rest =>
    if k' = k then (k', vs ++ [v]) :: rest else (k', vs) :: alistAppendTo rest k v

/-- Add `v` to the set stored under `k` (Python `depends_on[dst].add(src)`;
`k` is always present). -/
def alistAddToSet (l : List (String × List String)) (k v : String) :
    List (String × List String) :=
  match l with
  | [] => []
  | (k', vs) :: rest =>
    if k' = k then (k', if v ∈ vs then vs else vs ++ [v]) :: rest
    else (k', vs) :: alistAddToSet rest k v

/-- The edge-validation and map-building loop of `execute_flow`
(lines 229-241), folded over the edge list.  `outgoing_by_node` is built by
the source but never consulted afterwards, so it is not modelled. -/
def buildMapsGo (nodeIds : List String) :
    List Edge → List (String × List IncEdge) → List (String × List String) →
    Except FatalError (List (String × List IncEdge) × List (String × List String))
  | [], inc, dep => .ok (inc, dep)
  | e :: rest, inc, dep =>
    if e.fromNode = "" ∨ e.toNode = "" then .error .badEdge
    else if ¬ (e.fromNode ∈ nodeIds ∧ e.toNode ∈ nodeIds) then
      .error (.unknownEdgeRef e.fromNode e.toNode)
    else
      buildMapsGo nodeIds rest
        (alistAppendTo inc e.toNode ⟨e.fromNode, e.fromOutput, e.toInput⟩)
        (alistAddToSet dep e.toNode e.fromNode)

/-- Build `incoming_by_node` and `depends_on` from the payload's edges,
starting from empty entries for every declared node. -/
def buildMaps (nodeIds : List String) (edges : List Edge) :
    Except FatalError (List (String × List IncEdge) × List (String × List String)) :=
  buildMapsGo nodeIds edges
    (nodeIds.map fun n => (n, ([] : List IncEdge)))
    (nodeIds.map fun n => (n, ([] : List String)))

/-! ## Scheduler state and the readiness loop (lines 252-386) -/

/-- The per-invocation execution state: `executed`, `results`, `errors`,
`skipped`, `response_node_inputs` and `remaining_nodes`. -/
structure ExecSt where
  executed : List String
  results : List (String × Dict)
  errors : List (String × String)
  skipped : List String
  responseInputs : List (String × Dict)
  remaining : List String

/-- The read-only context a pass works in: registry, node configs, external
input overrides, and the compiled adjacency/dependency maps. -/
structure Ctx where
  reg : Registry
  nodesCfg : List (String × NodeCfg)
  external : List (String × Dict)
  incoming : List (String × List IncEdge)
  dependsOn : List (String × List String)

/-- `depends_on[n]` (every scheduled node has an entry; `[]` otherwise). -/
def Ctx.dependsOf (ctx : Ctx) (n : String) : List String :=
  (alistFind? ctx.dependsOn n).getD []

/-- `incoming_by_node.get(node_id, [])`. -/
def Ctx.incomingOf (ctx : Ctx) (n : String) : List IncEdge :=
  (alistFind? ctx.incoming n).getD []

/-- Outcome of routing one incoming edge (lines 294-330): it contributes a
value under an input key, is skipped silently (inactive or missing socket),
or fails because the upstream node has no results (which records a per-node
error and `break`s out of the routing loop). -/
inductive EdgeRoute where
  | val (key : String) (v : Value)
  | skip
  | fail (msg : String)

/-- Route a single incoming edge against the current `results` map. -/
def routeEdge (results : List (String × Dict)) (inc : IncEdge) : EdgeRoute :=
  match alistFind? results inc.src with
  | none => .fail ("Upstream node '" ++ inc.src ++ "' has no results")
  | some payload =>
    -- input_key = dst_input or src_output or "default"
    let inputKey :=
      if inc.input ≠ "" then inc.input
      else if inc.output ≠ "" then inc.output
      else "default"
    if inc.output ≠ "" then
      match alistFind? payload inc.output with
      | some candidate =>
        if pyEmptyLike candidate then .skip else .val inputKey candidate
      | none => .skip
    else
      match payload with
      | [(_, v)] => .val inputKey v
      | _ => .val inputKey (Value.vdict payload)

/-- Append a routed value to its input group
(`input_groups[input_key].append(value)`). -/
def groupAdd (groups : List (String × List Value)) (k : String) (v : Value) :
    List (String × List Value) :=
  if alistContains groups k then alistAppendTo groups k v
  else groups ++ [(k, [v])]

/-- The routing loop over a node's incoming edges: collect input groups,
stopping early (Python `break`) with the recorded message when an upstream
node has no results. -/
def routeIncoming (results : List (String × Dict)) :
    List IncEdge → List (String × List Value) →
    List (String × List Value) × Option String
  | [], groups => (groups, none)
  | inc :: rest, groups =>
    match routeEdge results inc with
    | .fail msg => (groups, some msg)
    | .skip => routeIncoming results rest groups
    | .val k v => routeIncoming results rest (groupAdd groups k v)

/-- The input groups and optional routing error computed for node `n`
against state `st`. -/
def nodeRouting (ctx : Ctx) (st : ExecSt) (n : String) :
    List (String × List Value) × Option String :=
  routeIncoming st.results (ctx.incomingOf n) []

/-- `built_inputs`: seeded from the caller's external overrides for `n`,
then one entry per input group — the single value as-is, several values
combined by `combine_multiple_inputs` (lines 286-339). -/
def nodeBuiltInputs (ctx : Ctx) (st : ExecSt) (n : String) : Dict :=
  ((nodeRouting ctx st n).1).foldl
    (fun b kv =>
      if kv.2.length = 1 then alistSet b kv.1 (kv.2.headD Value.vnone)
      else alistSet b kv.1 (combine_multiple_inputs kv.2))
    ((alistFind? ctx.external n).getD [])

/-- `results[node_id] = output if isinstance(output, dict) else
{"result": output}`. -/
def wrapOutput (v : Value) : Dict :=
  match v with
  | .vdict d => d
  | v => [("result", v)]

/-- Process one ready node (the body of `for node_id in ready_nodes`,
lines 269-378).  A returned `Except.error` is an exception escaping the
loop itself: the instantiation call at nodes.py:278 sits outside the
per-node `try`, so a raising node-class constructor aborts the invocation,
as does the `KeyError` on `results[node_id]` when a response-typed node's
`run` raised; every handled situation returns `.ok`.  In the run-exception
branch the source stores `f"{e}\n{tb}"`; the traceback, pure formatting,
is elided and the entry holds `str(e)`. -/
def processNode (ctx : Ctx) (st : ExecSt) (nodeId : String) :
    Except String ExecSt :=
  let cfg := (alistFind? ctx.nodesCfg nodeId).getD {}
  match NodeCfg.typeName cfg with
  | none =>
    .ok { st with errors := alistSet st.errors nodeId "Missing 'type' for node",
                  remaining := st.remaining.erase nodeId }
  | some tname =>
    match create_node_instance ctx.reg tname with
    | .error e => .error e
    | .ok none =>
      .ok { st with
            errors := alistSet st.errors nodeId ("Unknown node type '" ++ tname ++ "'"),
            remaining := st.remaining.erase nodeId }
    | .ok (some cap) =>
      let il := ctx.incomingOf nodeId
      let routeErr := (nodeRouting ctx st nodeId).2
      let errors1 :=
        match routeErr with
        | some m => alistSet st.errors nodeId m
        | none => st.errors
      let built := nodeBuiltInputs ctx st nodeId
      -- if incoming_list and (not built_inputs): skip silently
      if ¬ il.isEmpty ∧ built.isEmpty then
        .ok { st with errors := errors1,
                      skipped := st.skipped ++ [nodeId],
                      remaining := st.remaining.erase nodeId }
      -- if node_id in errors: drop the node
      else if alistContains errors1 nodeId then
        .ok { st with errors := errors1, remaining := st.remaining.erase nodeId }
      else
        match cap.run built cfg.parameters with
        | .ok output =>
          let outD := wrapOutput output
          let st1 := { st with
                       errors := errors1,
                       results := alistSet st.results nodeId outD,
                       executed := st.executed ++ [nodeId],
                       remaining := st.remaining.erase nodeId }
          if pyLower tname = "responsenode" then
            .ok { st1 with
                  responseInputs :=
                    alistSet st1.responseInputs nodeId (alistUpdate built outD) }
          else .ok st1
        | .error e =>
          let st1 := { st with
                       errors := alistSet errors1 nodeId e,
                       remaining := st.remaining.erase nodeId }
          if pyLower tname = "responsenode" then
            -- response_node_inputs[node_id] = {**built_inputs, **results[node_id]}
            match alistFind? st1.results nodeId with
            | some r =>
              .ok { st1 with
                    responseInputs :=
                      alistSet st1.responseInputs nodeId (alistUpdate built r) }
            | none => .error ("KeyError: '" ++ nodeId ++ "'")
          else .ok st1

/-- Process a pass's snapshot of ready nodes in order. -/
def processReady (ctx : Ctx) : List String → ExecSt → Except String ExecSt
  | [], st => .ok st
  | n :: rest, st =>
    match processNode ctx st n with
    | .error e => .error e
    | .ok st' => processReady ctx rest st'

/-- `ready_nodes`: the remaining nodes whose dependencies are all executed. -/
def readyNodes (ctx : Ctx) (st : ExecSt) : List String :=
  st.remaining.filter fun n => (ctx.dependsOf n).all fun p => p ∈ st.executed

/-- The scheduler's `while remaining_nodes and iterations < max_iterations`
loop.  `fuel` is the number of passes still allowed; exhausting it falls
through to the success response exactly as the source's iteration cap does.
A pass in which no node progressed (equivalently: whose ready snapshot was
empty, since every processed node is removed from `remaining`) raises the
deadlock `HTTPException`. -/
def schedLoop (ctx : Ctx) : Nat → ExecSt → Except FatalError ExecSt
  | 0, st => .ok st
  | fuel + 1, st =>
    if st.remaining.isEmpty then .ok st
    else
      let ready := readyNodes ctx st
      if ready.isEmpty then .error (.deadlock st.remaining)
      else
        match processReady ctx ready st with
        | .error e => .error (.internal e)
        | .ok st' => schedLoop ctx fuel st'

/-! ## The endpoint: `execute_flow` (lines 183-404) -/

/-- The success body of `/nodes/execute`: `data.response_inputs`,
`data.executed_nodes`, `data.skipped_nodes`, `data.errors`. -/
structure FlowOk where
  responseInputs : List (String × Dict)
  executedNodes : List String
  skippedNodes : List String
  errors : List (String × String)

/-- `type_values`: the lowercased declared type (or name) of every node,
with `""` for a missing type, in payload order. -/
def receivedTypes (p : Payload) : List String :=
  p.nodes.map fun nc => pyLower ((NodeCfg.typeName nc.2).getD "")

/-- `has_query`: some declared type lowercases to `"querynode"`. -/
def hasQueryRole (p : Payload) : Bool :=
  (receivedTypes p).any fun t => t = "querynode"

/-- `has_response`: some declared type lowercases to `"responsenode"`. -/
def hasResponseRole (p : Payload) : Bool :=
  (receivedTypes p).any fun t => t = "responsenode"

/-- The graph execution endpoint: validate, compile, schedule, aggregate. -/
def execute_flow (reg : Registry) (p : Payload) : Except FatalError FlowOk :=
  if p.nodes.isEmpty then .error .emptyNodes
  else if ¬ (hasQueryRole p ∧ hasResponseRole p) then
    .error (.missingRoles (receivedTypes p) (hasQueryRole p) (hasResponseRole p))
  else
    match buildMaps (p.nodes.map Prod.fst) p.edges with
    | .error e => .error e
    | .ok (incoming, dependsOn) =>
      let ctx : Ctx := ⟨reg, p.nodes, p.inputs, incoming, dependsOn⟩
      let st0 : ExecSt := ⟨[], [], [], [], [], p.nodes.map Prod.fst⟩
      match schedLoop ctx (p.nodes.length + 10) st0 with
      | .error e => .error e
      | .ok st => .ok ⟨st.responseInputs, st.executed, st.skipped, st.errors⟩

/-! ## The capabilities of the repository's registry

`BaseNode.run` (nodes/base_node.py lines 233-239) validates that every
required declared input is in `inputs` and every required declared parameter
is in `parameters` (raising `ValueError` otherwise) and then calls the
subclass's `execute`.  `BaseNode.__init__` (lines 65-71) calls
`_define_inputs`/`_define_outputs`/`_define_parameters`/`_define_styling`
during construction, so these run inside `node_registry.create_node`. -/

/-- `QueryNode.run` (query_node.py lines 178-196, through `BaseNode.run`):
no declared inputs; required parameter `query`; returns
`{"query": parameters["query"].strip()}`.  A non-string `query` makes
`.strip()` raise `AttributeError`. -/
def queryNodeRun (_inputs params : Dict) : Except String Value :=
  match alistFind? params "query" with
  | none => .error "Required parameter 'query' is missing"
  | some (Value.vstr q) => .ok (Value.vdict [("query", Value.vstr (pyStrip q))])
  | some v => .error ("'" ++ v.typeName ++ "' object has no attribute 'strip'")

/-- The `QueryNode` capability (its constructor succeeds: every keyword its
`_define_styling` passes is a declared `NodeStyling` field). -/
def queryNodeCap : Capability := ⟨queryNodeRun⟩

/-- `str(e)` for the `TypeError` that `ResponseNode()` always raises:
`ResponseNode._define_styling` (response_node.py:106) passes
`hide_outputs=True` to the `NodeStyling` dataclass (base_node.py:41-56),
which declares no such field, and `BaseNode.__init__` calls
`_define_styling` on construction — so no `ResponseNode` instance can ever
be created, and its `run` is unreachable in this snapshot.  The
`NodeStyling.__init__` qualname prefix follows CPython 3.10+; earlier
interpreters print the same message without the class prefix. -/
def responseNodeInitError : String :=
  "NodeStyling.__init__() got an unexpected keyword argument 'hide_outputs'"

/-- The repository's startup registry (register_nodes.py) restricted to the
two entries the verified graphs name; keys are the lowercased class names
under which `register_node` stores every node class.
`create_node("querynode")` returns a working instance;
`create_node("responsenode")` always raises the `hide_outputs` `TypeError`
while constructing the class.  The other six registered classes wrap
external services and are never resolved by the concrete graphs below;
unregistered type names resolve to `None` exactly as in the source. -/
def modelRegistry : Registry :=
  mkRegistry [("querynode", .ok queryNodeCap),
              ("responsenode", .error responseNodeInitError)]

/-! ## Concrete graph descriptions used to settle the claims -/

/-- A well-formed acyclic chain `q → b → r` whose middle node declares a
type that no registered node class carries. -/
def chainUnknownPayload : Payload :=
  { nodes :=
      [("q", { type? := some "QueryNode",
               parameters := [("query", Value.vstr "hi")] }),
       ("b", { type? := some "NoSuchNode" }),
       ("r", { type? := some "ResponseNode" })],
    edges :=
      [{ fromNode := "q", fromOutput := "query", toNode := "b", toInput := "x" },
       { fromNode := "b", fromOutput := "y", toNode := "r", toInput := "input_data" }] }

/-- A well-formed acyclic chain `q → b → r` whose middle node declares
neither a `type` nor a `name`. -/
def chainMissingTypePayload : Payload :=
  { nodes :=
      [("q", { type? := some "QueryNode",
               parameters := [("query", Value.vstr "hi")] }),
       ("b", {}),
       ("r", { type? := some "ResponseNode" })],
    edges :=
      [{ fromNode := "q", fromOutput := "query", toNode := "b", toInput := "x" },
       { fromNode := "b", fromOutput := "y", toNode := "r", toInput := "input_data" }] }

/-- A query node plus an unwired response node: the response node is ready
in the first pass, and constructing it raises the `hide_outputs`
`TypeError`. -/
def unwiredResponsePayload : Payload :=
  { nodes :=
      [("q", { type? := some "QueryNode",
               parameters := [("query", Value.vstr "hi")] }),
       ("r", { type? := some "ResponseNode" })],
    edges := [] }

/-- A response node whose only incoming edge names an output the query node
never produces — every one of its sockets would be inactive at routing
time, but its constructor raises before routing is reached. -/
def skippedResponsePayload : Payload :=
  { nodes :=
      [("q", { type? := some "QueryNode",
               parameters := [("query", Value.vstr "hi")] }),
       ("r", { type? := some "ResponseNode" })],
    edges :=
      [{ fromNode := "q", fromOutput := "bogus", toNode := "r",
         toInput := "input_data" }] }

/-- A payload containing the two-node dependency cycle `a ⇄ b` beside a
query node, with no external input overrides. -/
def cyclePayload : Payload :=
  { nodes :=
      [("q", { type? := some "QueryNode",
               parameters := [("query", Value.vstr "hi")] }),
       ("a", { type? := some "ResponseNode" }),
       ("b", { type? := some "ResponseNode" })],
    edges :=
      [{ fromNode := "a", fromOutput := "o", toNode := "b", toInput := "i" },
       { fromNode := "b", fromOutput := "o", toNode := "a", toInput := "i" }] }

/-- A registry in which every type name resolves and every `run` returns
normally (used to separate scheduling behaviour from capability failures). -/
def totalRegistry : Registry :=
  fun _ => .ok (some ⟨fun _ _ => .ok (Value.vdict [("out", Value.vstr "x")])⟩)

/-! ## Small fixtures used by the witnesses below -/

/-- One node `x` of the constructible `QueryNode` type declared without
parameters, so its `run` raises the required-parameter `ValueError`. -/
def failingCtx : Ctx :=
  ⟨modelRegistry, [("x", { type? := some "QueryNode" })], [],
   [("x", [])], [("x", [])]⟩

/-- The scheduler state right before `x` is processed. -/
def failingSt : ExecSt := ⟨[], [], [], [], [], ["x"]⟩

/-- A node `m` of the constructible `QueryNode` type whose only incoming
edge names output `o` of `u`. -/
def inactiveCtx : Ctx :=
  ⟨modelRegistry, [("m", { type? := some "QueryNode" })], [],
   [("m", [⟨"u", "o", "i"⟩])], [("m", ["u"])]⟩

/-- A state in which `u` executed and produced an empty string on `o`. -/
def inactiveSt : ExecSt :=
  ⟨["u"], [("u", [("o", Value.vstr "")])], [], [], [], ["m"]⟩

/-- A ready node `r` declared with the `ResponseNode` type under the
repository registry (its wiring never matters: instantiation precedes
routing). -/
def overrideCtx : Ctx :=
  ⟨modelRegistry, [("r", { type? := some "ResponseNode" })],
   [("r", [("input_data", Value.vstr "yo")])], [("r", [])], [("r", [])]⟩

/-- The scheduler state right before `r` is processed. -/
def overrideSt : ExecSt := ⟨[], [], [], [], [], ["r"]⟩

/-- A capability ignoring its inputs and returning the bare string `"ran"`. -/
def echoCap : Capability := ⟨fun _ _ => .ok (Value.vstr "ran")⟩

/-- A node `m` reached by two edges that name no `from_output`, both routed
to the input `in`. -/
def mergeCtx : Ctx :=
  ⟨fun _ => .ok (some echoCap), [("m", { type? := some "MergeNode" })], [],
   [("m", [⟨"u1", "", "in"⟩, ⟨"u2", "", "in"⟩])], [("m", ["u1", "u2"])]⟩

/-- A state in which `u1` and `u2` each produced a single empty-string
output. -/
def mergeSt : ExecSt :=
  ⟨["u1", "u2"],
   [("u1", [("q1", Value.vstr "")]), ("u2", [("q2", Value.vstr "")])],
   [], [], [], ["m"]⟩

/-- A payload containing the cycle `a ⇄ b` plus an unwired response node:
the fatal instantiation `TypeError` fires in the first pass, before any
deadlock pass is reached. -/
def cycleWithCrashPayload : Payload :=
  { nodes :=
      [("q", { type? := some "QueryNode",
               parameters := [("query", Value.vstr "hi")] }),
       ("r", { type? := some "ResponseNode" }),
       ("a", { type? := some "QueryNode" }),
       ("b", { type? := some "QueryNode" })],
    edges :=
      [{ fromNode := "a", fromOutput := "o", toNode := "b", toInput := "i" },
       { fromNode := "b", fromOutput := "o", toNode := "a", toInput := "i" }] }

/-- A query node whose `query` parameter is an int — so its `run` raises —
beside the mandatory response node. -/
def runRaisePayload : Payload :=
  { nodes :=
      [("qbad", { type? := some "QueryNode",
                  parameters := [("query", Value.vint 5)] }),
       ("r", { type? := some "ResponseNode" })],
    edges := [] }

/-- The empty graph description. -/
def emptyPayload : Payload := { nodes := [], edges := [] }

/-- A graph declaring a query node but no response node. -/
def queryOnlyPayload : Payload :=
  { nodes := [("q", { type? := some "QueryNode" })], edges := [] }





/-! ## Supporting lemmas: routing -/

/-- An edge naming an output that is absent from, or empty in, its source's
results routes to `skip`. -/
theorem routeEdge_inactive (results : List (String × Dict)) (inc : IncEdge)
    (payload : Dict)
    (hout : inc.output ≠ "")
    (hsrc : alistFind? results inc.src = some payload)
    (hinactive : ∀ v, alistFind? payload inc.output = some v → pyEmptyLike v = true) :
    routeEdge results inc = .skip := by
  unfold routeEdge
  rw [hsrc]
  cases h : alistFind? payload inc.output with
  | none => simp [hout, h]
  | some v => simp [hout, h, hinactive v h]

/-- A skipped edge leaves the routing fold unchanged. -/
theorem routeIncoming_skip_cons (results : List (String × Dict)) (inc : IncEdge)
    (rest : List IncEdge) (groups : List (String × List Value))
    (h : routeEdge results inc = .skip) :
    routeIncoming results (inc :: rest) groups = routeIncoming results rest groups := by
  simp [routeIncoming, h]

/-- Routing a list of edges that all skip returns the groups unchanged and
no routing error. -/
theorem routeIncoming_all_skip (results : List (String × Dict)) :
    ∀ (il : List IncEdge) (groups : List (String × List Value)),
    (∀ e ∈ il, routeEdge results e = .skip) →
    routeIncoming results il groups = (groups, none) := by
  intro il
  induction il with
  | nil => intro groups _; rfl
  | cons e rest ih =>
    intro groups h
    rw [routeIncoming_skip_cons results e rest groups (h e (by simp))]
    exact ih groups (fun e' he' => h e' (by simp [he']))

/-! ## Supporting lemmas: ordered dicts -/

/-- Looking up the key just assigned yields the assigned value. -/
theorem alistFind?_set_self {α : Type} (l : List (String × α)) (k : String) (v : α) :
    alistFind? (alistSet l k v) k = some v := by
  induction l with
  | nil => simp [alistSet, alistFind?]
  | cons kv rest ih =>
    by_cases h : kv.1 = k
    · simp [alistSet, h, alistFind?]
    · simp [alistSet, h, alistFind?, ih]

/-- Assigning one key does not disturb lookups of another. -/
theorem alistFind?_set_ne {α : Type} (l : List (String × α)) (k k' : String) (v : α)
    (h : k' ≠ k) : alistFind? (alistSet l k' v) k = alistFind? l k := by
  induction l with
  | nil => simp [alistSet, alistFind?, h]
  | cons kv rest ih =>
    by_cases hk : kv.1 = k'
    · simp [alistSet, hk, alistFind?, h]
    · simp [alistSet, hk, alistFind?, ih]

/-- `d.update(other)` does not disturb keys outside `other`. -/
theorem alistFind?_update_not_mem {α : Type} (other : List (String × α)) :
    ∀ (d : List (String × α)) (k : String), k ∉ other.map Prod.fst →
    alistFind? (alistUpdate d other) k = alistFind? d k := by
  induction other with
  | nil => intro d k _; rfl
  | cons kv rest ih =>
    intro d k h
    simp only [List.map_cons, List.mem_cons] at h
    push_neg at h
    show alistFind? (alistUpdate (alistSet d kv.1 kv.2) rest) k = alistFind? d k
    rw [ih (alistSet d kv.1 kv.2) k h.2]
    exact alistFind?_set_ne d k kv.1 kv.2 (fun hh => h.1 hh.symm)

/-- After `d.update(other)`, every binding of `other` (whose keys are
duplicate-free, as Python dict keys are) wins lookups: the update overrides
`d` on key collisions. -/
theorem alistUpdate_find_right {α : Type} (other : List (String × α)) :
    ∀ (d : List (String × α)) (k : String) (v : α),
    (other.map Prod.fst).Nodup → alistFind? other k = some v →
    alistFind? (alistUpdate d other) k = some v := by
  induction other with
  | nil => intro d k v _ h; simp [alistFind?] at h
  | cons kv rest ih =>
    intro d k v hnd h
    simp only [List.map_cons, List.nodup_cons] at hnd
    show alistFind? (alistUpdate (alistSet d kv.1 kv.2) rest) k = some v
    unfold alistFind? at h
    by_cases hk : kv.1 = k
    · simp only [hk, if_true] at h
      cases h
      rw [alistFind?_update_not_mem rest (alistSet d kv.1 kv.2) k (hk ▸ hnd.1)]
      exact hk ▸ alistFind?_set_self d kv.1 kv.2
    · simp only [hk, if_false] at h
      exact ih (alistSet d kv.1 kv.2) k v hnd.2 h

/-! ## Supporting lemmas: the per-node step and the pass fold -/

/-- A registry all of whose lookups are benign: instantiation never raises,
and every resolvable capability's `run` always returns normally. -/
def RegTotal (reg : Registry) : Prop :=
  ∀ t, reg t = .ok none ∨
    ∃ cap, reg t = .ok (some cap) ∧ ∀ i p, ∃ v, cap.run i p = .ok v

/-- Instantiation through `create_node_instance` never raises under a total
registry. -/
theorem create_node_instance_no_raise {reg : Registry} (h : RegTotal reg)
    (t e : String) : create_node_instance reg t ≠ .error e := by
  unfold create_node_instance
  rcases h t with h1 | ⟨cap, h1, _⟩ <;> rw [h1]
  · rcases h (pyLower t) with h2 | ⟨cap2, h2, _⟩ <;> rw [h2] <;> simp
  · simp

/-- A capability resolved through `create_node_instance` from a total
registry always returns normally. -/
theorem create_node_instance_total {reg : Registry} (h : RegTotal reg)
    {t : String} {cap : Capability}
    (hc : create_node_instance reg t = .ok (some cap)) :
    ∀ i p, ∃ v, cap.run i p = .ok v := by
  unfold create_node_instance at hc
  rcases h t with h1 | ⟨cap1, h1, htot1⟩ <;> rw [h1] at hc
  · rcases h (pyLower t) with h2 | ⟨cap2, h2, htot2⟩ <;> rw [h2] at hc
    · simp at hc
    · cases hc
      exact htot2
  · cases hc
    exact htot1

/-- Whatever happens inside a step that returns normally, the node is removed
from `remaining` and `executed` either stays or gains exactly that node. -/
theorem processNode_fields (ctx : Ctx) (st : ExecSt) (n : String) (st' : ExecSt)
    (h : processNode ctx st n = .ok st') :
    st'.remaining = st.remaining.erase n ∧
    (st'.executed = st.executed ∨ st'.executed = st.executed ++ [n]) := by
  simp only [processNode] at h
  repeat' split at h
  all_goals first
  | (cases h; exact ⟨rfl, by simp⟩)
  | simp at h

/-- Under a total registry a step never escapes with an exception. -/
theorem processNode_ok (ctx : Ctx) (st : ExecSt) (n : String)
    (h : RegTotal ctx.reg) : ∃ st', processNode ctx st n = .ok st' := by
  cases hp : processNode ctx st n with
  | ok st' => exact ⟨st', rfl⟩
  | error e =>
    exfalso
    simp only [processNode] at hp
    repeat' split at hp
    all_goals try exact Except.noConfusion hp
    case _ =>
      rename_i xty tname hty xcap ecreate hcap
      exact create_node_instance_no_raise h tname ecreate hcap
    case _ =>
      rename_i xty tname hty xcap cap hcap hskip herrs xrun erun hrun hresp xfind hfind
      obtain ⟨v, hv⟩ := create_node_instance_total h hcap
        (nodeBuiltInputs ctx st n) ((alistFind? ctx.nodesCfg n).getD {}).parameters
      rw [hv] at hrun
      exact Except.noConfusion hrun

/-- Under a total registry a whole pass returns normally. -/
theorem processReady_ok (ctx : Ctx) (h : RegTotal ctx.reg) :
    ∀ (ns : List String) (st : ExecSt), ∃ st', processReady ctx ns st = .ok st' := by
  intro ns
  induction ns with
  | nil => intro st; exact ⟨st, rfl⟩
  | cons n rest ih =>
    intro st
    obtain ⟨st1, h1⟩ := processNode_ok ctx st n h
    obtain ⟨st', h'⟩ := ih st1
    exact ⟨st', by simp [processReady, h1, h']⟩

/-- A pass only removes remaining nodes, only executes processed nodes, and
never grows `remaining`. -/
theorem processReady_props (ctx : Ctx) :
    ∀ (ns : List String) (st st' : ExecSt), processReady ctx ns st = .ok st' →
    (∀ x ∈ st'.remaining, x ∈ st.remaining) ∧
    (∀ x ∈ st'.executed, x ∈ st.executed ∨ x ∈ ns) ∧
    st'.remaining.length ≤ st.remaining.length := by
  intro ns
  induction ns with
  | nil =>
    intro st st' h
    cases h
    exact ⟨fun x hx => hx, fun x hx => Or.inl hx, le_refl _⟩
  | cons n rest ih =>
    intro st st' h
    unfold processReady at h
    cases hpn : processNode ctx st n with
    | error e => rw [hpn] at h; exact Except.noConfusion h
    | ok st1 =>
      rw [hpn] at h
      obtain ⟨hrem, hexe⟩ := processNode_fields ctx st n st1 hpn
      obtain ⟨ih1, ih2, ih3⟩ := ih st1 st' h
      refine ⟨?_, ?_, ?_⟩
      · intro x hx
        have := ih1 x hx
        rw [hrem] at this
        exact List.mem_of_mem_erase this
      · intro x hx
        rcases ih2 x hx with h1 | h1
        · rcases hexe with he | he
          · rw [he] at h1; exact Or.inl h1
          · rw [he] at h1
            rcases List.mem_append.mp h1 with h2 | h2
            · exact Or.inl h2
            · simp at h2
              exact Or.inr (by simp [h2])
        · exact Or.inr (List.mem_cons_of_mem n h1)
      · calc st'.remaining.length ≤ st1.remaining.length := ih3
          _ ≤ st.remaining.length := by
              rw [hrem]; exact (List.erase_sublist n st.remaining).length_le

/-- A pass whose snapshot starts with a genuinely remaining node strictly
shrinks `remaining`. -/
theorem processReady_shrinks (ctx : Ctx) (n : String) (rest : List String)
    (st st' : ExecSt) (h : processReady ctx (n :: rest) st = .ok st')
    (hn : n ∈ st.remaining) :
    st'.remaining.length < st.remaining.length := by
  unfold processReady at h
  cases hpn : processNode ctx st n with
  | error e => rw [hpn] at h; exact Except.noConfusion h
  | ok st1 =>
    rw [hpn] at h
    obtain ⟨hrem, _⟩ := processNode_fields ctx st n st1 hpn
    have hle := (processReady_props ctx rest st1 st' h).2.2
    have hlt : st1.remaining.length < st.remaining.length := by
      rw [hrem, List.length_erase_of_mem hn]
      have := List.length_pos.mpr (List.ne_nil_of_mem hn)
      omega
    omega

/-- Nodes outside the processed snapshot keep their "remaining and never
executed" status across a pass. -/
theorem processReady_preserves (ctx : Ctx) (C : List String) :
    ∀ (ns : List String) (st st' : ExecSt), processReady ctx ns st = .ok st' →
    (∀ c ∈ C, c ∉ ns) →
    (∀ c ∈ C, c ∈ st.remaining ∧ c ∉ st.executed) →
    (∀ c ∈ C, c ∈ st'.remaining ∧ c ∉ st'.executed) := by
  intro ns
  induction ns with
  | nil => intro st st' h _ hinv; cases h; exact hinv
  | cons n rest ih =>
    intro st st' h hC hinv
    unfold processReady at h
    cases hpn : processNode ctx st n with
    | error e => rw [hpn] at h; exact Except.noConfusion h
    | ok st1 =>
      rw [hpn] at h
      obtain ⟨hrem, hexe⟩ := processNode_fields ctx st n st1 hpn
      refine ih st1 st' h (fun c hc => fun hmem => hC c hc (List.mem_cons_of_mem n hmem))
        (fun c hc => ?_)
      have hcn : c ≠ n := fun hh => hC c hc (hh ▸ List.mem_cons_self n rest)
      constructor
      · rw [hrem]
        exact (List.mem_erase_of_ne hcn).mpr (hinv c hc).1
      · rcases hexe with he | he
        · rw [he]; exact (hinv c hc).2
        · rw [he]
          intro hmem
          rcases List.mem_append.mp hmem with h2 | h2
          · exact (hinv c hc).2 h2
          · simp at h2; exact hcn h2

/-- The ready snapshot is drawn from `remaining`. -/
theorem readyNodes_subset (ctx : Ctx) (st : ExecSt) :
    ∀ x ∈ readyNodes ctx st, x ∈ st.remaining := by
  intro x hx
  exact (List.mem_filter.mp hx).1

/-- Core of the cycle claim: if some non-empty node set is closed under
"has an unexecuted dependency inside the set", the scheduler loop, run with
enough fuel and a total registry, ends in the deadlock error and reports
every such node unresolved. -/
theorem schedLoop_cycle_deadlock (ctx : Ctx) (C : List String)
    (hreg : RegTotal ctx.reg)
    (hcyc : ∀ c ∈ C, ∃ p, p ∈ C ∧ p ∈ ctx.dependsOf c)
    (hCne : C ≠ []) :
    ∀ (fuel : Nat) (st : ExecSt), st.remaining.length < fuel →
    (∀ c ∈ C, c ∈ st.remaining ∧ c ∉ st.executed) →
    ∃ unresolved, schedLoop ctx fuel st = .error (.deadlock unresolved) ∧
      ∀ c ∈ C, c ∈ unresolved := by
  intro fuel
  induction fuel with
  | zero => intro st hlt _; exact absurd hlt (Nat.not_lt_zero _)
  | succ f ih =>
    intro st hlt hinv
    have hrne : st.remaining ≠ [] := by
      obtain ⟨c, hc⟩ := List.exists_mem_of_ne_nil C hCne
      intro hemp
      have := (hinv c hc).1
      rw [hemp] at this
      exact absurd this (List.not_mem_nil c)
    have hieF : st.remaining.isEmpty = false := by
      simp [List.isEmpty_iff, hrne]
    have hCready : ∀ c ∈ C, c ∉ readyNodes ctx st := by
      intro c hc hmem
      obtain ⟨p, hpC, hpdep⟩ := hcyc c hc
      have hall := (List.mem_filter.mp hmem).2
      rw [List.all_eq_true] at hall
      have := hall p hpdep
      simp at this
      exact (hinv p hpC).2 this
    unfold schedLoop
    rw [hieF]
    simp only [Bool.false_eq_true, if_false]
    cases hie : (readyNodes ctx st).isEmpty with
    | true =>
      refine ⟨st.remaining, by simp [hie], fun c hc => (hinv c hc).1⟩
    | false =>
      obtain ⟨st', hok⟩ := processReady_ok ctx hreg (readyNodes ctx st) st
      have hready_ne : readyNodes ctx st ≠ [] := by
        simp [List.isEmpty_iff] at hie
        exact hie
      obtain ⟨r0, rrest, hr0⟩ := List.exists_cons_of_ne_nil hready_ne
      have hr0mem : r0 ∈ st.remaining :=
        readyNodes_subset ctx st r0 (hr0 ▸ List.mem_cons_self r0 rrest)
      have hshrink : st'.remaining.length < st.remaining.length :=
        processReady_shrinks ctx r0 rrest st st' (hr0 ▸ hok) hr0mem
      have hinv' := processReady_preserves ctx C (readyNodes ctx st) st st' hok
        hCready hinv
      obtain ⟨u, hu, hCu⟩ := ih st' (by omega) hinv'
      refine ⟨u, ?_, hCu⟩
      simp only [hie, Bool.false_eq_true, if_false, hok]
      exact hu

/-- Without any totality assumption on the registry, a state whose remaining
nodes contain such a closed set can still never reach the success exit: each
pass either crashes the invocation, deadlocks, or strictly shrinks
`remaining` while keeping the set inside it. -/
theorem schedLoop_cycle_no_success (ctx : Ctx) (C : List String)
    (hcyc : ∀ c ∈ C, ∃ p, p ∈ C ∧ p ∈ ctx.dependsOf c)
    (hCne : C ≠ []) :
    ∀ (fuel : Nat) (st : ExecSt), st.remaining.length < fuel →
    (∀ c ∈ C, c ∈ st.remaining ∧ c ∉ st.executed) →
    ∀ st', schedLoop ctx fuel st ≠ .ok st' := by
  intro fuel
  induction fuel with
  | zero => intro st hlt _; exact absurd hlt (Nat.not_lt_zero _)
  | succ f ih =>
    intro st hlt hinv st' hok
    have hrne : st.remaining ≠ [] := by
      obtain ⟨c, hc⟩ := List.exists_mem_of_ne_nil C hCne
      intro hemp
      have := (hinv c hc).1
      rw [hemp] at this
      exact absurd this (List.not_mem_nil c)
    have hieF : st.remaining.isEmpty = false := by
      simp [List.isEmpty_iff, hrne]
    have hCready : ∀ c ∈ C, c ∉ readyNodes ctx st := by
      intro c hc hmem
      obtain ⟨p, hpC, hpdep⟩ := hcyc c hc
      have hall := (List.mem_filter.mp hmem).2
      rw [List.all_eq_true] at hall
      have := hall p hpdep
      simp at this
      exact (hinv p hpC).2 this
    unfold schedLoop at hok
    rw [hieF] at hok
    simp only [Bool.false_eq_true, if_false] at hok
    cases hie : (readyNodes ctx st).isEmpty with
    | true => rw [hie] at hok; simp at hok
    | false =>
      rw [hie] at hok
      simp only [Bool.false_eq_true, if_false] at hok
      cases hpr : processReady ctx (readyNodes ctx st) st with
      | error e => rw [hpr] at hok; simp at hok
      | ok st1 =>
        rw [hpr] at hok
        have hready_ne : readyNodes ctx st ≠ [] := by
          simp [List.isEmpty_iff] at hie
          exact hie
        obtain ⟨r0, rrest, hr0⟩ := List.exists_cons_of_ne_nil hready_ne
        have hr0mem : r0 ∈ st.remaining :=
          readyNodes_subset ctx st r0 (hr0 ▸ List.mem_cons_self r0 rrest)
        have hshrink : st1.remaining.length < st.remaining.length :=
          processReady_shrinks ctx r0 rrest st st1 (hr0 ▸ hpr) hr0mem
        have hinv' := processReady_preserves ctx C (readyNodes ctx st) st st1 hpr
          hCready hinv
        exact ih st1 (by omega) hinv' st' hok

/-! ## Supporting lemmas: the compiled dependency map -/

/-- `depends_on[dst].add(src)` keeps the key set. -/
theorem alistAddToSet_keys (l : List (String × List String)) (k v : String) :
    (alistAddToSet l k v).map Prod.fst = l.map Prod.fst := by
  induction l with
  | nil => rfl
  | cons kv rest ih =>
    by_cases h : kv.1 = k <;> simp [alistAddToSet, h, ih]

/-- `depends_on[dst].add(src)` keeps existing memberships. -/
theorem alistAddToSet_mono : ∀ (l : List (String × List String)) (k k' v v' : String),
    v ∈ (alistFind? l k).getD [] →
    v ∈ (alistFind? (alistAddToSet l k' v') k).getD [] := by
  intro l
  induction l with
  | nil => intro k k' v v' h; simp [alistFind?] at h
  | cons kv rest ih =>
    obtain ⟨k0, vs⟩ := kv
    intro k k' v v' h
    unfold alistAddToSet
    by_cases h0 : k0 = k'
    · rw [if_pos h0]
      unfold alistFind? at h ⊢
      by_cases h1 : k0 = k
      · rw [if_pos h1] at h
        rw [if_pos h1]
        simp only [Option.getD_some] at h ⊢
        by_cases hv : v' ∈ vs
        · simp [hv, h]
        · simp only [hv, if_false]
          exact List.mem_append_left _ h
      · rw [if_neg h1] at h
        rw [if_neg h1]
        exact h
    · rw [if_neg h0]
      unfold alistFind? at h ⊢
      by_cases h1 : k0 = k
      · rw [if_pos h1] at h; rw [if_pos h1]; exact h
      · rw [if_neg h1] at h; rw [if_neg h1]; exact ih k k' v v' h

/-- `depends_on[dst].add(src)` establishes membership when `dst` has an
entry. -/
theorem alistAddToSet_self : ∀ (l : List (String × List String)) (k v : String),
    k ∈ l.map Prod.fst →
    v ∈ (alistFind? (alistAddToSet l k v) k).getD [] := by
  intro l
  induction l with
  | nil => intro k v h; simp at h
  | cons kv rest ih =>
    obtain ⟨k0, vs⟩ := kv
    intro k v h
    unfold alistAddToSet
    by_cases h0 : k0 = k
    · rw [if_pos h0]
      unfold alistFind?
      rw [if_pos h0]
      simp only [Option.getD_some]
      by_cases hv : v ∈ vs
      · simp [hv]
      · simp [hv]
    · rw [if_neg h0]
      unfold alistFind?
      rw [if_neg h0]
      refine ih k v ?_
      simp only [List.map_cons, List.mem_cons] at h
      rcases h with h | h
      · exact absurd h.symm h0
      · exact h

/-- Dependencies recorded earlier survive the rest of the edge fold. -/
theorem buildMapsGo_mono (nodeIds : List String) :
    ∀ (edges : List Edge) (inc : List (String × List IncEdge))
      (dep : List (String × List String)) inc' dep',
    buildMapsGo nodeIds edges inc dep = .ok (inc', dep') →
    ∀ k v, v ∈ (alistFind? dep k).getD [] → v ∈ (alistFind? dep' k).getD [] := by
  intro edges
  induction edges with
  | nil =>
    intro inc dep inc' dep' h k v hv
    unfold buildMapsGo at h
    cases h
    exact hv
  | cons e rest ih =>
    intro inc dep inc' dep' h k v hv
    unfold buildMapsGo at h
    split at h
    · exact Except.noConfusion h
    · split at h
      · exact Except.noConfusion h
      · exact ih _ _ inc' dep' h k v (alistAddToSet_mono dep k e.toNode v e.fromNode hv)

/-- A validated edge list leaves every declared edge's dependency in the
final map and endpoints among the declared nodes. -/
theorem buildMapsGo_edge (nodeIds : List String) :
    ∀ (edges : List Edge) (inc : List (String × List IncEdge))
      (dep : List (String × List String)) inc' dep',
    buildMapsGo nodeIds edges inc dep = .ok (inc', dep') →
    dep.map Prod.fst = nodeIds →
    ∀ e ∈ edges, e.toNode ∈ nodeIds ∧
      e.fromNode ∈ (alistFind? dep' e.toNode).getD [] := by
  intro edges
  induction edges with
  | nil => intro inc dep inc' dep' _ _ e he; simp at he
  | cons e0 rest ih =>
    intro inc dep inc' dep' h hkeys e he
    unfold buildMapsGo at h
    split at h
    · exact Except.noConfusion h
    · next hvalid =>
      split at h
      · exact Except.noConfusion h
      · next hmem =>
        push_neg at hmem
        rcases List.mem_cons.mp he with he0 | herest
        · subst he0
          refine ⟨hmem.2, ?_⟩
          refine buildMapsGo_mono nodeIds rest _ _ inc' dep' h e.toNode e.fromNode ?_
          exact alistAddToSet_self dep e.toNode e.fromNode (hkeys ▸ hmem.2)
        · refine ih _ _ inc' dep' h ?_ e herest
          rw [alistAddToSet_keys]
          exact hkeys

/-! ## The claims -/

/-- C1: the claim says only graph-validation failures and deadlocks terminate
an invocation, and that every per-node local failure (missing type, unknown
type, a raising `run`) is isolated to its node, the invocation completing
normally with every other node accounted for in `executed`/`skipped`/`errors`.
The code disagrees: readiness requires every dependency to be in `executed`,
so nodes downstream of a locally-failed node never become ready and the
scheduler raises the fatal deadlock error instead — here, on a well-formed
acyclic chain `q → b → r` where only `b`'s node type is unknown, the
invocation aborts with `DeadlockError(["r"])` and the returned payload
(partial results, `errors["b"]`) is lost.  (The unreachable
"Upstream node has no results" handler at nodes.py lines 299-302 shows the
intended local handling.) -/
theorem C1_unknown_type_failure_deadlocks_invocation :
    execute_flow modelRegistry chainUnknownPayload =
      .error (.deadlock ["r"]) := rfl

/-- C2: the claim says every well-formed acyclic graph terminates normally
with `executed`, `skipped` and the keys of `errors` partitioning the node
set.  Evaluating the engine on the well-formed acyclic chain `q → b → r`
whose middle node declares no type shows the scheduler instead aborts with
the fatal deadlock error: `b` lands in `errors`, never in `executed`, so `r`
never becomes ready and no partition of the node set is produced. -/
theorem C2_wellformed_acyclic_graph_fails_fatally :
    execute_flow modelRegistry chainMissingTypePayload =
      .error (.deadlock ["r"]) := rfl

/-- C3 counterexample: the claim says an exception from any capability's
`run` is stored in `errors`, does not propagate, and the invocation returns
a normal response.  At this input the query node `qbad`'s `run` really does
raise (its `query` parameter is an int, so `.strip()` raises
`AttributeError`) and the engine records it without propagating it — but
the invocation still returns no normal response: the mandatory response
node `r` is ready in the same pass and its constructor raises the
`hide_outputs` `TypeError`, aborting the invocation through the fatal 500
path. -/
theorem C3_run_exception_no_normal_response :
    queryNodeRun [] [("query", Value.vint 5)] =
      .error "'int' object has no attribute 'strip'" ∧
    execute_flow modelRegistry runRaisePayload =
      .error (.internal responseNodeInitError) :=
  ⟨rfl, rfl⟩

/-- C3 (amended): for every ready node that instantiates successfully and is
NOT declared with the terminal-response type name, an exception from `run`
is stored as the node's entry in `errors`, does not propagate (the step
returns normally), and only removes that node from `remaining`.  The
invocation as a whole still need not return a normal response: with the
repository's registry the mandatory response node aborts it at
instantiation, as the counterexample shows. -/
theorem C3_nonresponse_run_exception_isolated
    (ctx : Ctx) (st : ExecSt) (n : String) (cfg : NodeCfg)
    (t : String) (cap : Capability) (msg : String)
    (hcfg : alistFind? ctx.nodesCfg n = some cfg)
    (ht : cfg.typeName = some t)
    (hcap : create_node_instance ctx.reg t = .ok (some cap))
    (hnr : pyLower t ≠ "responsenode")
    (hroute : (nodeRouting ctx st n).2 = none)
    (herr : alistFind? st.errors n = none)
    (hskip : ¬ (¬ (ctx.incomingOf n).isEmpty ∧ (nodeBuiltInputs ctx st n).isEmpty))
    (hrun : cap.run (nodeBuiltInputs ctx st n) cfg.parameters = .error msg) :
    processNode ctx st n =
      .ok { st with errors := alistSet st.errors n msg,
                    remaining := st.remaining.erase n } := by
  unfold processNode
  simp only [hcfg, Option.getD_some, ht, hcap, hroute, hrun]
  rw [if_neg hskip]
  simp [alistContains, herr, hnr]

/-- C3 witness: a concrete query node declared without its required `query`
parameter — `run` raises the required-parameter `ValueError` — ends with
the message in `errors` and the step returning normally. -/
theorem C3_nonresponse_run_exception_isolated_witness :
    processNode failingCtx failingSt "x" =
      .ok { failingSt with
            errors := alistSet failingSt.errors "x"
              "Required parameter 'query' is missing",
            remaining := failingSt.remaining.erase "x" } :=
  C3_nonresponse_run_exception_isolated failingCtx failingSt "x"
    { type? := some "QueryNode" } "QueryNode" queryNodeCap
    "Required parameter 'query' is missing"
    rfl rfl rfl (by decide) rfl rfl (by decide) rfl

/-- C4 counterexample: the claim promises that every graph containing a
2+-node cycle terminates via DeadlockError; but a cycle `a ⇄ b` beside an
unwired response node terminates via the fatal instantiation `TypeError` of
the response node's constructor in the very first pass — a plain internal
500, not the deadlock error reporting the unresolved cycle. -/
theorem C4_crash_preempts_deadlock :
    execute_flow modelRegistry cycleWithCrashPayload =
      .error (.internal responseNodeInitError) ∧
    (Except.error (FatalError.internal responseNodeInitError) :
        Except FatalError FlowOk) ≠
      .error (.deadlock ["a", "b"]) :=
  ⟨rfl, fun h => FatalError.noConfusion (Except.error.inj h)⟩

/-- C4 (amended): a graph description passing validation whose edges contain
a dependency cycle (each node of a non-empty set `C` has an in-set
predecessor through a declared edge — in particular any cycle among two or
more nodes, with or without external-override entries, which the scheduler
never consults for readiness) never makes the invocation return a success
response; and when no node-class constructor and no capability `run` raises
(neither holds for the shipped ResponseNode, whence the counterexample) the
invocation terminates with the DeadlockError, reporting all cycle nodes
among the unresolved ids. -/
theorem C4_cycle_deadlocks (reg : Registry) (p : Payload) (C : List String)
    {incoming : List (String × List IncEdge)}
    {dependsOn : List (String × List String)}
    (hne : p.nodes.isEmpty = false)
    (hq : hasQueryRole p = true) (hr : hasResponseRole p = true)
    (hmaps : buildMaps (p.nodes.map Prod.fst) p.edges = .ok (incoming, dependsOn))
    (hCne : C ≠ [])
    (hcyc : ∀ c ∈ C, ∃ p', p' ∈ C ∧ ∃ e ∈ p.edges, e.fromNode = p' ∧ e.toNode = c) :
    (RegTotal reg →
      ∃ unresolved, execute_flow reg p = .error (.deadlock unresolved) ∧
        ∀ c ∈ C, c ∈ unresolved) ∧
    ∀ ok : FlowOk, execute_flow reg p ≠ .ok ok := by
  have hkeys0 : ((p.nodes.map Prod.fst).map fun n => (n, ([] : List String))).map Prod.fst
      = p.nodes.map Prod.fst := by
    simp
  have hedge := buildMapsGo_edge (p.nodes.map Prod.fst) p.edges _ _ incoming dependsOn
    hmaps hkeys0
  have hcyc' : ∀ c ∈ C, ∃ p', p' ∈ C ∧
      p' ∈ Ctx.dependsOf ⟨reg, p.nodes, p.inputs, incoming, dependsOn⟩ c := by
    intro c hc
    obtain ⟨p', hp'C, e, he, hef, het⟩ := hcyc c hc
    refine ⟨p', hp'C, ?_⟩
    have := (hedge e he).2
    rw [hef, het] at this
    exact this
  have hCnodes : ∀ c ∈ C, c ∈ p.nodes.map Prod.fst := by
    intro c hc
    obtain ⟨p', _, e, he, _, het⟩ := hcyc c hc
    have := (hedge e he).1
    rw [het] at this
    exact this
  constructor
  · intro hreg
    obtain ⟨u, hu, hCu⟩ := schedLoop_cycle_deadlock
      ⟨reg, p.nodes, p.inputs, incoming, dependsOn⟩ C hreg hcyc' hCne
      (p.nodes.length + 10) ⟨[], [], [], [], [], p.nodes.map Prod.fst⟩
      (by simp) (fun c hc => ⟨hCnodes c hc, by simp⟩)
    refine ⟨u, ?_, hCu⟩
    unfold execute_flow
    rw [hne]
    simp only [Bool.false_eq_true, if_false, hq, hr]
    rw [if_neg (by simp)]
    rw [hmaps]
    simp only [hu]
  · intro ok hok
    unfold execute_flow at hok
    rw [hne] at hok
    simp only [Bool.false_eq_true, if_false, hq, hr] at hok
    rw [if_neg (by simp)] at hok
    simp only [hmaps] at hok
    cases hsl : schedLoop ⟨reg, p.nodes, p.inputs, incoming, dependsOn⟩
        (p.nodes.length + 10) ⟨[], [], [], [], [], p.nodes.map Prod.fst⟩ with
    | error e => rw [hsl] at hok; simp at hok
    | ok st1 =>
      exact schedLoop_cycle_no_success
        ⟨reg, p.nodes, p.inputs, incoming, dependsOn⟩ C hcyc' hCne
        (p.nodes.length + 10) ⟨[], [], [], [], [], p.nodes.map Prod.fst⟩
        (by simp) (fun c hc => ⟨hCnodes c hc, by simp⟩) st1 hsl

/-- C4 witness: the concrete two-node cycle `a ⇄ b` beside a query node,
under a registry that always runs normally, deadlocks reporting `a` and `b`
unresolved. -/
theorem C4_cycle_deadlocks_witness :
    execute_flow totalRegistry cyclePayload = .error (.deadlock ["a", "b"]) := by
  obtain ⟨u, hu, hCu⟩ := (C4_cycle_deadlocks totalRegistry cyclePayload ["a", "b"]
    rfl rfl rfl rfl (by simp) (by decide)).1
    (fun t => Or.inr ⟨_, rfl, fun i p => ⟨_, rfl⟩⟩)
  have h2 : (Except.error (FatalError.deadlock u) : Except FatalError FlowOk) =
      .error (.deadlock ["a", "b"]) := hu.symm.trans (by rfl)
  exact hu.trans h2

/-- C5 counterexample: the claim predicts that combining the two non-empty
strings `" "` and `"x"` yields the sentinel-prefixed join
`"Combined inputs:\n \n\nx"`; the code instead takes the
"some strings blank after stripping" arm and returns the longest string
(first on ties), i.e. `" "`. -/
theorem C5_whitespace_string_counterexample :
    combine_multiple_inputs [Value.vstr " ", Value.vstr "x"] = Value.vstr " " ∧
    Value.vstr " " ≠ Value.vstr ("Combined inputs:\n \n\nx") :=
  ⟨rfl, fun h => absurd (Value.vstr.inj h) (by decide)⟩

/-- C5 (amended): for two strings routed to the same input, if both are
non-empty AND non-blank (non-empty after stripping whitespace) the combined
value is `"Combined inputs:\n"` followed by the two joined with a double
newline in list order; if exactly one is the empty string the other is
returned unchanged.  (A non-empty but whitespace-only operand instead makes
the combiner return the longest value, as the counterexample shows.) -/
theorem C5_two_string_combination (a b : String) :
    (a ≠ "" → b ≠ "" → 0 < (pyStrip a).length → 0 < (pyStrip b).length →
      combine_multiple_inputs [Value.vstr a, Value.vstr b] =
        Value.vstr ("Combined inputs:\n" ++ a ++ "\n\n" ++ b)) ∧
    (a = "" → b ≠ "" →
      combine_multiple_inputs [Value.vstr a, Value.vstr b] = Value.vstr b) ∧
    (b = "" → a ≠ "" →
      combine_multiple_inputs [Value.vstr a, Value.vstr b] = Value.vstr a) := by
  have hnone : ∀ s, ((Value.vstr s == Value.vnone) : Bool) = false := fun _ => rfl
  have hestr : ∀ s : String, ((Value.vstr s == Value.vstr "") : Bool) = (s == "") :=
    fun _ => rfl
  refine ⟨?_, ?_, ?_⟩
  · intro ha hb ha' hb'
    simp [combine_multiple_inputs, List.filter, hnone, hestr,
          beq_eq_false_iff_ne.mpr ha, beq_eq_false_iff_ne.mpr hb,
          Value.isStr, Value.asStr, ha', hb', String.intercalate,
          String.intercalate.go, String.append_assoc]
  · intro ha hb
    subst ha
    simp [combine_multiple_inputs, List.filter, hnone, hestr,
          beq_eq_false_iff_ne.mpr hb]
  · intro hb ha
    subst hb
    simp [combine_multiple_inputs, List.filter, hnone, hestr,
          beq_eq_false_iff_ne.mpr ha]

/-- C5 witness: two concrete non-blank strings get the sentinel join, and an
empty first operand returns the second unchanged. -/
theorem C5_two_string_combination_witness :
    combine_multiple_inputs [Value.vstr "hi", Value.vstr "yo"] =
      Value.vstr ("Combined inputs:\n" ++ "hi" ++ "\n\n" ++ "yo") ∧
    combine_multiple_inputs [Value.vstr "", Value.vstr "yo"] = Value.vstr "yo" :=
  ⟨(C5_two_string_combination "hi" "yo").1 (by decide) (by decide)
      (by decide) (by decide),
   (C5_two_string_combination "" "yo").2.1 rfl (by decide)⟩

/-- C6: an incoming edge that names a `from_output` which is absent from the
source's results, or present with an empty value (`None`, `""`, `[]`, `{}`),
contributes nothing to routing: the whole routing fold over any edge list
containing it equals the fold with the edge deleted, for every state of the
input groups — so the inactive socket is invisible no matter how many other
edges target the same input. -/
theorem C6_inactive_socket_invisible (results : List (String × Dict))
    (pre post : List IncEdge) (inc : IncEdge) (payload : Dict)
    (hout : inc.output ≠ "")
    (hsrc : alistFind? results inc.src = some payload)
    (hinactive : ∀ v, alistFind? payload inc.output = some v → pyEmptyLike v = true) :
    ∀ groups, routeIncoming results (pre ++ inc :: post) groups =
      routeIncoming results (pre ++ post) groups := by
  induction pre with
  | nil =>
    intro groups
    exact routeIncoming_skip_cons results inc post groups
      (routeEdge_inactive results inc payload hout hsrc hinactive)
  | cons e rest ih =>
    intro groups
    simp only [List.cons_append, routeIncoming]
    cases routeEdge results e with
    | fail msg => rfl
    | skip => exact ih _
    | val k v => exact ih _

/-- C6 witness: a concrete edge whose named output carries `""` routes the
same as no edge at all. -/
theorem C6_inactive_socket_invisible_witness :
    routeIncoming [("s", [("o", Value.vstr "")])]
        ([] ++ ⟨"s", "o", "i"⟩ :: []) [] =
      routeIncoming [("s", [("o", Value.vstr "")])] ([] ++ []) [] :=
  C6_inactive_socket_invisible [("s", [("o", Value.vstr "")])] [] []
    ⟨"s", "o", "i"⟩ [("o", Value.vstr "")] (by decide) rfl
    (fun v hv => by cases hv; rfl) []

/-- C7 counterexample: the claim quantifies over every node with only
inactive incoming edges — but for the repository's own terminal node it
fails: `r` (a `ResponseNode` whose single incoming edge names a missing
output) is never added to `skipped`, because its constructor raises the
`hide_outputs` `TypeError` at nodes.py:278, before the routing and skip
logic, and the invocation aborts through the fatal 500 path instead of the
claim's normal response with `r` skipped. -/
theorem C7_inactive_response_node_not_skipped :
    execute_flow modelRegistry skippedResponsePayload =
      .error (.internal responseNodeInitError) ∧
    (Except.error (FatalError.internal responseNodeInitError) :
        Except FatalError FlowOk) ≠ .ok ⟨[], ["q"], ["r"], []⟩ :=
  ⟨rfl, fun h => Except.noConfusion h⟩

/-- C7 (amended): every node that INSTANTIATES SUCCESSFULLY, has at least
one incoming edge, no external-override entry, and only inactive incoming
edges (each names an output absent from or empty in its source's results)
is skipped: the step adds it to `skipped`, removes it from `remaining`, and
leaves `executed`, `results` and `errors` untouched; moreover the outcome
is the same under ANY registry resolving its type to an instance, so the
capability's `run` is never consulted.  (A node whose constructor raises —
the repository's own terminal node — instead aborts the invocation before
the skip check, as the counterexample shows.) -/
theorem C7_all_inactive_node_skipped (ctx : Ctx) (st : ExecSt) (n : String)
    (cfg : NodeCfg) (t : String) (cap : Capability)
    (hcfg : alistFind? ctx.nodesCfg n = some cfg)
    (ht : cfg.typeName = some t)
    (hcap : create_node_instance ctx.reg t = .ok (some cap))
    (hext : alistFind? ctx.external n = none)
    (hne : ctx.incomingOf n ≠ [])
    (hall : ∀ e ∈ ctx.incomingOf n, e.output ≠ "" ∧
      ∃ payload, alistFind? st.results e.src = some payload ∧
        ∀ v, alistFind? payload e.output = some v → pyEmptyLike v = true)
    (hnores : alistFind? st.results n = none) :
    (processNode ctx st n =
      .ok { st with skipped := st.skipped ++ [n],
                    remaining := st.remaining.erase n }) ∧
    alistFind?
        (ExecSt.results { st with skipped := st.skipped ++ [n],
                                  remaining := st.remaining.erase n }) n = none ∧
    ∀ (reg2 : Registry) (cap2 : Capability),
      create_node_instance reg2 t = .ok (some cap2) →
      processNode { ctx with reg := reg2 } st n =
        .ok { st with skipped := st.skipped ++ [n],
                      remaining := st.remaining.erase n } := by
  have main : ∀ (reg2 : Registry) (cap2 : Capability),
      create_node_instance reg2 t = .ok (some cap2) →
      processNode { ctx with reg := reg2 } st n =
        .ok { st with skipped := st.skipped ++ [n],
                      remaining := st.remaining.erase n } := by
    intro reg2 cap2 hcap2
    have hroute : nodeRouting { ctx with reg := reg2 } st n = ([], none) := by
      unfold nodeRouting
      exact routeIncoming_all_skip st.results (ctx.incomingOf n) []
        (fun e he =>
          (hall e he).2.elim fun payload hp =>
            routeEdge_inactive st.results e payload (hall e he).1 hp.1 hp.2)
    have hbuilt : nodeBuiltInputs { ctx with reg := reg2 } st n = [] := by
      unfold nodeBuiltInputs
      rw [hroute]
      show List.foldl _ ((alistFind? ctx.external n).getD []) [] = []
      rw [hext]
      rfl
    have hinc2 : Ctx.incomingOf { ctx with reg := reg2 } n = ctx.incomingOf n := rfl
    have hie : (ctx.incomingOf n).isEmpty = false := by
      simp [List.isEmpty_iff, hne]
    unfold processNode
    simp only [hcfg, Option.getD_some, ht, hcap2, hroute, hbuilt, hinc2, hie]
    simp
  exact ⟨main ctx.reg cap hcap, hnores, main⟩

/-- C7 witness: a concrete constructible query-type node whose single
incoming edge carries an empty named output is skipped without running. -/
theorem C7_all_inactive_node_skipped_witness :
    processNode inactiveCtx inactiveSt "m" =
      .ok { inactiveSt with skipped := inactiveSt.skipped ++ ["m"],
                            remaining := inactiveSt.remaining.erase "m" } :=
  (C7_all_inactive_node_skipped inactiveCtx inactiveSt "m"
    { type? := some "QueryNode" } "QueryNode" queryNodeCap
    rfl rfl rfl rfl (by decide)
    (by
      intro e he
      have he' : e = ⟨"u", "o", "i"⟩ := by
        simpa [inactiveCtx, Ctx.incomingOf, alistFind?] using he
      subst he'
      exact ⟨by decide, [("o", Value.vstr "")], rfl, fun v hv => by cases hv; rfl⟩)
    rfl).1

/-- C8 counterexample: the claim wants `response_inputs` to contain an entry
for EVERY node of the terminal-response type once the scheduler reaches a
terminal state; but the moment the response node `r` becomes ready its
constructor raises the `hide_outputs` `TypeError`, the invocation aborts
through the fatal 500 path, and no `response_inputs` map (let alone an
entry for `r`) is ever produced. -/
theorem C8_ready_response_node_no_merged_entry :
    execute_flow modelRegistry unwiredResponsePayload =
      .error (.internal responseNodeInitError) ∧
    (execute_flow modelRegistry unwiredResponsePayload).isOk = false :=
  ⟨rfl, rfl⟩

/-- C8 (amended): no terminal-response-typed node ever receives a
`response_inputs` entry in this snapshot: under the repository's registry,
processing any ready node whose declared type lowercases to
`"responsenode"` aborts at instantiation with the `hide_outputs`
`TypeError` — before routing, the skip check or `run` — so the scheduler
never reaches a success state once such a node is scheduled, and the
merge-of-inputs-and-outputs entry the original claim describes is never
computed for any node. -/
theorem C8_response_type_node_crashes_at_instantiation
    (ctx : Ctx) (st : ExecSt) (n : String) (cfg : NodeCfg) (t : String)
    (hreg : ctx.reg = modelRegistry)
    (hcfg : alistFind? ctx.nodesCfg n = some cfg)
    (ht : cfg.typeName = some t)
    (hresp : pyLower t = "responsenode") :
    processNode ctx st n = .error responseNodeInitError := by
  have hrt : ctx.reg t = .error responseNodeInitError := by
    rw [hreg]
    show mkRegistry _ t = _
    unfold mkRegistry
    rw [hresp]
    rfl
  have hcr : create_node_instance ctx.reg t = .error responseNodeInitError := by
    unfold create_node_instance
    rw [hrt]
  unfold processNode
  simp only [hcfg, Option.getD_some, ht, hcr]

/-- C8 witness: the concrete ready `ResponseNode`-typed node `r` crashes its
processing step with the instantiation `TypeError`, whatever its wiring. -/
theorem C8_response_type_node_crashes_at_instantiation_witness :
    processNode overrideCtx overrideSt "r" = .error responseNodeInitError :=
  C8_response_type_node_crashes_at_instantiation overrideCtx overrideSt "r"
    { type? := some "ResponseNode" } "ResponseNode" rfl rfl rfl rfl

/-- C10: an incoming edge naming no `from_output` routes the source's single
output value (or its whole output map when it has several keys) with no
emptiness check at all; in particular two such edges routing empty strings
to the same input key make the combiner return `None`, `built_inputs` gains
the key bound to `None` rather than omitting it, the node is not skipped,
and its `run` is called on exactly that map. -/
theorem C10_unnamed_output_bypasses_emptiness
    (ctx : Ctx) (st : ExecSt) (n : String) (cfg : NodeCfg)
    (t : String) (cap : Capability) (k s1 s2 o1 o2 : String) (out : Value)
    (hcfg : alistFind? ctx.nodesCfg n = some cfg)
    (ht : cfg.typeName = some t)
    (hcap : create_node_instance ctx.reg t = .ok (some cap))
    (hnr : pyLower t ≠ "responsenode")
    (hinc : ctx.incomingOf n = [⟨s1, "", k⟩, ⟨s2, "", k⟩])
    (hk : k ≠ "")
    (hr1 : alistFind? st.results s1 = some [(o1, Value.vstr "")])
    (hr2 : alistFind? st.results s2 = some [(o2, Value.vstr "")])
    (hext : alistFind? ctx.external n = none)
    (herr : alistFind? st.errors n = none)
    (hrun : cap.run [(k, Value.vnone)] cfg.parameters = .ok out) :
    (∀ (results : List (String × Dict)) (inc : IncEdge) (payload : Dict),
      inc.output = "" → alistFind? results inc.src = some payload →
      routeEdge results inc =
        .val (if inc.input ≠ "" then inc.input else "default")
          (match payload with | [(_, v)] => v | _ => Value.vdict payload)) ∧
    nodeBuiltInputs ctx st n = [(k, Value.vnone)] ∧
    processNode ctx st n =
      .ok { st with
            results := alistSet st.results n (wrapOutput out),
            executed := st.executed ++ [n],
            remaining := st.remaining.erase n } := by
  have partA : ∀ (results : List (String × Dict)) (inc : IncEdge) (payload : Dict),
      inc.output = "" → alistFind? results inc.src = some payload →
      routeEdge results inc =
        .val (if inc.input ≠ "" then inc.input else "default")
          (match payload with | [(_, v)] => v | _ => Value.vdict payload) := by
    intro results inc payload hout hsrc
    unfold routeEdge
    rw [hsrc, hout]
    rcases payload with _ | ⟨⟨a, v⟩, _ | ⟨hd2, tl⟩⟩ <;> simp
  have h1 : routeEdge st.results ⟨s1, "", k⟩ = .val k (Value.vstr "") :=
    (partA st.results ⟨s1, "", k⟩ [(o1, Value.vstr "")] rfl hr1).trans (by simp [hk])
  have h2 : routeEdge st.results ⟨s2, "", k⟩ = .val k (Value.vstr "") :=
    (partA st.results ⟨s2, "", k⟩ [(o2, Value.vstr "")] rfl hr2).trans (by simp [hk])
  have hroute : nodeRouting ctx st n = ([(k, [Value.vstr "", Value.vstr ""])], none) := by
    unfold nodeRouting
    rw [hinc]
    simp [routeIncoming, h1, h2, groupAdd, alistContains, alistFind?, alistAppendTo]
  have hbuilt : nodeBuiltInputs ctx st n = [(k, Value.vnone)] := by
    unfold nodeBuiltInputs
    rw [hroute, hext]
    rfl
  refine ⟨partA, hbuilt, ?_⟩
  unfold processNode
  simp only [hcfg, Option.getD_some, ht, hcap, hroute, hbuilt, hrun]
  have hskip : ¬ (¬ (ctx.incomingOf n).isEmpty ∧ ([(k, Value.vnone)] : Dict).isEmpty) := by
    simp
  rw [if_neg hskip]
  simp [alistContains, herr, hnr]

/-- C10 witness: two concrete unnamed-output edges carrying empty strings
leave `m` with `built_inputs = {"in": None}` and its `run` executing. -/
theorem C10_unnamed_output_bypasses_emptiness_witness :
    nodeBuiltInputs mergeCtx mergeSt "m" = [("in", Value.vnone)] ∧
    processNode mergeCtx mergeSt "m" =
      .ok { mergeSt with
            results := alistSet mergeSt.results "m" (wrapOutput (Value.vstr "ran")),
            executed := mergeSt.executed ++ ["m"],
            remaining := mergeSt.remaining.erase "m" } :=
  ⟨(C10_unnamed_output_bypasses_emptiness mergeCtx mergeSt "m"
      { type? := some "MergeNode" } "MergeNode" echoCap "in" "u1" "u2" "q1" "q2"
      (Value.vstr "ran") rfl rfl rfl (by decide) rfl (by decide)
      rfl rfl rfl rfl rfl).2.1,
   (C10_unnamed_output_bypasses_emptiness mergeCtx mergeSt "m"
      { type? := some "MergeNode" } "MergeNode" echoCap "in" "u1" "u2" "q1" "q2"
      (Value.vstr "ran") rfl rfl rfl (by decide) rfl (by decide)
      rfl rfl rfl rfl rfl).2.2⟩

/-- C9 counterexample: for the empty graph description (which has no node of
either role) the code fails on the emptiness check, NOT with the structured
missing-roles error naming the missing role(s) and echoing the received
type list that the claim promises for every such description. -/
theorem C9_empty_graph_counterexample :
    execute_flow modelRegistry emptyPayload = .error .emptyNodes ∧
    (Except.error FatalError.emptyNodes : Except FatalError FlowOk) ≠
      .error (.missingRoles [] false false) :=
  ⟨rfl, fun h => FatalError.noConfusion (Except.error.inj h)⟩

/-- C9 (amended): for every NON-EMPTY graph description whose declared types
contain no query-source node or no terminal-response node, the invocation
fails before any node executes with the structured missing-roles error,
echoing the full received (lowercased) type list and both role booleans, for
any registry and any value of the rest of the graph. -/
theorem C9_missing_role_structured_error (reg : Registry) (p : Payload)
    (hne : p.nodes.isEmpty = false)
    (hrole : ¬ (hasQueryRole p ∧ hasResponseRole p)) :
    execute_flow reg p =
      .error (.missingRoles (receivedTypes p) (hasQueryRole p) (hasResponseRole p)) := by
  unfold execute_flow
  rw [hne]
  simp only [Bool.false_eq_true, if_false]
  rw [if_pos hrole]

/-- C9 witness: a graph with only a query node fails with the structured
error naming the response role as missing and echoing the type list. -/
theorem C9_missing_role_structured_error_witness :
    execute_flow modelRegistry queryOnlyPayload =
      .error (.missingRoles ["querynode"] true false) :=
  C9_missing_role_structured_error modelRegistry queryOnlyPayload rfl (by decide)

end DIYBot
